import Mathlib

/-!
Shallow embedding of the upload coordinator in
`src/frontend/services/fileService.js` (class `FileService`), together with
proofs of the behavioural properties stated in the specification.

JavaScript numbers appearing here (file sizes, HTTP status codes, retry
counters) are modelled as `Nat`; the single floating-point computation
(`formatFileSize`) is modelled with exact rational arithmetic over `Nat`,
which agrees with the IEEE computation on the inputs at stake.  Fallible
asynchronous calls are modelled as explicit outcome parameters, and
`throw`/`catch` as `Except`.
-/

set_option autoImplicit false

namespace FileService

/-! ## Data model: file descriptors and type configuration

Mirrors `this.allowedTypes` in the constructor (lines 21-66): five classes
in insertion order image, video, audio, document, archive. -/

structure TypeConfig where
  extensions : List String
  mimeTypes : List String
  maxSize : Nat
  name : String
  folder : String
deriving DecidableEq, Repr

def imageConfig : TypeConfig :=
  { extensions := [".jpg", ".jpeg", ".png", ".gif", ".webp"]
    mimeTypes := ["image/jpeg", "image/png", "image/gif", "image/webp"]
    maxSize := 10 * 1024 * 1024
    name := "이미지"
    folder := "images" }

def videoConfig : TypeConfig :=
  { extensions := [".mp4", ".webm", ".mov"]
    mimeTypes := ["video/mp4", "video/webm", "video/quicktime"]
    maxSize := 50 * 1024 * 1024
    name := "동영상"
    folder := "videos" }

def audioConfig : TypeConfig :=
  { extensions := [".mp3", ".wav", ".ogg"]
    mimeTypes := ["audio/mpeg", "audio/wav", "audio/ogg"]
    maxSize := 20 * 1024 * 1024
    name := "오디오"
    folder := "audio" }

def documentConfig : TypeConfig :=
  { extensions := [".pdf", ".doc", ".docx", ".txt"]
    mimeTypes := ["application/pdf", "application/msword",
      "application/vnd.openxmlformats-officedocument.wordprocessingml.document",
      "text/plain"]
    maxSize := 20 * 1024 * 1024
    name := "문서"
    folder := "documents" }

def archiveConfig : TypeConfig :=
  { extensions := [".zip", ".rar", ".7z"]
    mimeTypes := ["application/zip", "application/x-rar-compressed",
      "application/x-7z-compressed"]
    maxSize := 50 * 1024 * 1024
    name := "압축파일"
    folder := "archives" }

/-- JS `Object.values(this.allowedTypes)` in insertion order. -/
def allowedTypes : List TypeConfig :=
  [imageConfig, videoConfig, audioConfig, documentConfig, archiveConfig]

/-- Config `this.uploadLimit = 50 * 1024 * 1024` (line 9). -/
def uploadLimit : Nat := 50 * 1024 * 1024

/-- Config `this.retryAttempts = 3` (line 10). -/
def retryAttemptsConfig : Nat := 3

/-- Config `this.retryDelay = 1000` (line 11). -/
def retryDelayConfig : Nat := 1000

/-- A candidate file: `file.name`, `file.type` (declared MIME type),
`file.size` in bytes. -/
structure FileDesc where
  name : String
  type : String
  size : Nat
deriving DecidableEq, Repr

/-! ## `getFileExtension` (lines 510-512)

`filename.substring(filename.lastIndexOf('.'))`: the suffix starting at the
last dot (dot included); when no dot is present `lastIndexOf` is `-1` and
`substring` clamps to `0`, returning the whole string. -/

/-- Suffix starting at the last occurrence of a dot, if any. -/
def extFromLastDot : List Char → Option (List Char)
  | [] => none
  | c :: cs =>
    match extFromLastDot cs with
    | some e => some e
    | none => if c = '.' then some (c :: cs) else none

def getFileExtension (filename : String) : String :=
  match extFromLastDot filename.toList with
  | some e => String.mk e
  | none => filename

/-- JS `String.prototype.toLowerCase()` (character-wise lowering; agrees with
JS on the ASCII extensions involved here). -/
def lowerString (s : String) : String :=
  String.mk (s.toList.map Char.toLower)

/-! ## `formatFileSize` (lines 502-508)

The JS code computes `i = floor(log bytes / log 1024)` in floating point,
then `parseFloat((bytes / 1024^i).toFixed(2)) + ' ' + sizes[i]`.  We model
`i` as the exact integer logarithm and `toFixed(2)`/`parseFloat` as exact
rounding to two decimal places followed by trailing-zero trimming; both
agree with the double-precision computation on all inputs used below. -/

def sizesList : List String := ["Bytes", "KB", "MB", "GB"]

/-- Fuel-driven integer logarithm: `logFloorAux b fuel n` counts how many
times `n` can be divided by `b` while staying at least `b`. -/
def logFloorAux (b : Nat) : Nat → Nat → Nat
  | 0, _ => 0
  | fuel + 1, n => if b ≤ n then logFloorAux b fuel (n / b) + 1 else 0

/-- JS `Math.floor(Math.log n / Math.log b)` for `n ≥ 1`, `b ≥ 2`. -/
def logFloor (b n : Nat) : Nat := logFloorAux b n n

/-- Exact `round (num / den * 100)` with ties rounded up, as `toFixed(2)` does for
nonnegative values. -/
def roundTo2 (num den : Nat) : Nat := (num * 200 + den) / (2 * den)

/-- Render `n2 / 100` as a decimal numeral, dropping trailing zeros in the
fractional part (the effect of `parseFloat` on the `toFixed(2)` output). -/
def trimDecimal (n2 : Nat) : String :=
  let intPart := n2 / 100
  let frac := n2 % 100
  if frac = 0 then toString intPart
  else if frac % 10 = 0 then toString intPart ++ "." ++ toString (frac / 10)
  else if frac < 10 then toString intPart ++ ".0" ++ toString frac
  else toString intPart ++ "." ++ toString frac

def formatFileSize (bytes : Nat) : String :=
  if bytes = 0 then "0 Bytes"
  else
    trimDecimal (roundTo2 bytes (1024 ^ logFloor 1024 bytes)) ++ " " ++
      (sizesList.getD (logFloor 1024 bytes) "undefined")

/-! ## `validateFile` (lines 76-163) -/

/-- Outcome of `validateFile`: `{success:false, message}` or
`{success:true, typeConfig}`. -/
inductive ValidationResult
  | failure (message : String)
  | ok (typeConfig : TypeConfig)
deriving DecidableEq, Repr

def noFileMsg : String := "파일이 선택되지 않았습니다."

def globalCapMsg : String :=
  "파일 크기는 " ++ formatFileSize uploadLimit ++ "를 초과할 수 없습니다."

def unsupportedMsg : String :=
  "지원하지 않는 파일 형식입니다. 지원 형식: " ++
    String.intercalate ", " (allowedTypes.map TypeConfig.name)

def classCapMsg (cfg : TypeConfig) : String :=
  cfg.name ++ " 파일은 " ++ formatFileSize cfg.maxSize ++ "를 초과할 수 없습니다."

def badExtMsg (cfg : TypeConfig) : String :=
  cfg.name ++ " 파일의 확장자가 올바르지 않습니다. 지원 확장자: " ++
    String.intercalate ", " cfg.extensions

/-- The checks performed once a `typeConfig` has been matched (lines
137-162): per-class size cap, then the extension-membership spoofing
guard, then success. -/
def checkMatched (f : FileDesc) (cfg : TypeConfig) : ValidationResult :=
  if f.size > cfg.maxSize then .failure (classCapMsg cfg)
  else if ¬ cfg.extensions.contains (lowerString (getFileExtension f.name)) then
    .failure (badExtMsg cfg)
  else .ok cfg

/-- First class whose MIME set contains the declared type (lines 100-107). -/
def findByMime (ty : String) : Option TypeConfig :=
  allowedTypes.find? (fun cfg => cfg.mimeTypes.contains ty)

/-- First class whose extension set contains the lowercased extension
(lines 110-121). -/
def findByExt (ext : String) : Option TypeConfig :=
  allowedTypes.find? (fun cfg => cfg.extensions.contains ext)

def validateFile (file : Option FileDesc) : ValidationResult :=
  match file with
  | none => .failure noFileMsg
  | some f =>
    if f.size > uploadLimit then .failure globalCapMsg
    else
      match findByMime f.type with
      | some cfg => checkMatched f cfg
      | none =>
        match findByExt (lowerString (getFileExtension f.name)) with
        | some cfg => checkMatched f cfg
        | none => .failure unsupportedMsg

/-! ## `getS3Url` (lines 174-180)

`this.cloudFrontDomain` comes from the environment; it is used under a JS
truthiness test, so `none` and the empty string both select the bucket-URL
branch. -/

structure S3Config where
  cloudFrontDomain : Option String
  bucketUrl : String
deriving DecidableEq, Repr

def getS3Url (cfg : S3Config) (s3Key : String) : String :=
  match cfg.cloudFrontDomain with
  | some d => if d = "" then cfg.bucketUrl ++ "/" ++ s3Key
              else "https://" ++ d ++ "/" ++ s3Key
  | none => cfg.bucketUrl ++ "/" ++ s3Key

/-! ## `uploadToS3` (lines 182-230)

A single `fetch` PUT of the raw bytes.  The transport outcome is a
parameter: either an HTTP response (any status; `response.ok` means
2xx) or a rejected promise.  On `!response.ok` the code throws inside the
`try`, and the `catch` rethrows every error with the prefix
`S3 업로드 실패: `. -/

inductive PutOutcome
  | response (status : Nat) (statusText : String) (etag : Option String)
  | reject (msg : String)
deriving DecidableEq, Repr

/-- JS `response.ok`: status in the range 200-299. -/
def responseOk (status : Nat) : Bool := 200 ≤ status && status ≤ 299

structure S3UploadResult where
  s3Key : String
  url : String
  etag : Option String
deriving DecidableEq, Repr

def uploadToS3 (put : PutOutcome) (s3Key url : String) : Except String S3UploadResult :=
  match put with
  | .response status statusText etag =>
    if responseOk status then .ok ⟨s3Key, url, etag⟩
    else .error ("S3 업로드 실패: " ++ "S3 upload failed: " ++ toString status ++
      " " ++ statusText)
  | .reject msg => .error ("S3 업로드 실패: " ++ msg)

/-! ## `saveFileMetadata` (lines 380-423)

An authenticated JSON POST.  Outcomes of the successive POSTs and of the
successive `authService.refreshToken()` calls are given as streams indexed
by how many such calls have been made so far.  The JS method never throws:
every path returns a response object `{success, message?, data?}`.  On a
401 with a successful refresh it recursively re-invokes itself in full, so
termination is not syntactically guaranteed; we make the recursion depth
explicit with fuel, `none` meaning the recursion exceeded the fuel. -/

/-- Shape of `response.data` of the metadata POST: `success`, optional `message`,
and `data.file._id` when present. -/
structure MetaResponse where
  success : Bool
  message : Option String
  fileId : Option String
deriving DecidableEq, Repr

/-- Outcome of one POST to `/api/files/metadata`: a 2xx response carrying
`response.data`, an axios error carrying `error.response.status` and
`error.response.data.message`, or a transport failure with no response. -/
inductive PostOutcome
  | ok (data : MetaResponse)
  | httpError (status : Nat) (msg : Option String)
  | netError
deriving DecidableEq, Repr

/-- Outcome of one `authService.refreshToken()` call: resolves with a
truthy/falsy value, or rejects. -/
inductive RefreshOutcome
  | ok (refreshed : Bool)
  | exn
deriving DecidableEq, Repr

def sessionExpiredMsg : String := "인증이 만료되었습니다. 다시 로그인해주세요."

def metaFailMsg : String := "메타데이터 저장에 실패했습니다."

/-- Result of a (terminating) `saveFileMetadata` run: how many POSTs were
issued, how many refresh calls were made, and the returned response
object. -/
structure SaveTrace where
  posts : Nat
  refreshes : Nat
  result : MetaResponse
deriving DecidableEq, Repr

/-- Run `saveFileMetadata post refresh fuel p r`: run the method when `p` POSTs
and `r` refreshes have already happened (both `0` at the outer call). -/
def saveFileMetadata (post : Nat → PostOutcome) (refresh : Nat → RefreshOutcome) :
    Nat → Nat → Nat → Option SaveTrace
  | 0, _, _ => none
  | fuel + 1, p, r =>
    match post p with
    | .ok data => some ⟨p + 1, r, data⟩
    | .httpError status msg =>
      if status = 401 then
        match refresh r with
        | .ok true => saveFileMetadata post refresh fuel (p + 1) (r + 1)
        | .ok false => some ⟨p + 1, r + 1, ⟨false, some sessionExpiredMsg, none⟩⟩
        | .exn => some ⟨p + 1, r + 1, ⟨false, some sessionExpiredMsg, none⟩⟩
      else some ⟨p + 1, r, ⟨false, some (msg.getD metaFailMsg), none⟩⟩
    | .netError => some ⟨p + 1, r, ⟨false, some metaFailMsg, none⟩⟩

/-! ## `uploadToS3Method` (lines 279-330)

Direct-storage path: PUT the bytes, then persist metadata; on metadata
failure throw, otherwise return the success record.  The metadata response
is passed in as the (terminating) result of `saveFileMetadata`.  Reading
`metadataResponse.data.file._id` when `data` is absent would throw a
TypeError in JS, which likewise propagates as an error. -/

/-- Shape of `data.file` of a successful upload (the FileRecord). -/
structure FileRecord where
  _id : String
  filename : String
  originalname : String
  mimetype : String
  size : Nat
  url : String
  s3Key : String
deriving DecidableEq, Repr

def metaSaveFailedMsg : String := "파일 메타데이터 저장에 실패했습니다."

def uploadToS3Method (put : PutOutcome) (meta : MetaResponse) (f : FileDesc)
    (s3Key url : String) : Except String FileRecord :=
  match uploadToS3 put s3Key url with
  | .error e => .error e
  | .ok s3res =>
    if meta.success then
      match meta.fileId with
      | some id =>
        .ok { _id := id, filename := s3res.s3Key, originalname := f.name,
              mimetype := f.type, size := f.size, url := s3res.url,
              s3Key := s3res.s3Key }
      | none => .error "TypeError: cannot read properties of undefined"
    else .error ((meta.message).getD metaSaveFailedMsg)

/-! ## `uploadFile` (lines 232-277)

Validates, checks credentials, picks the strategy, and catches every error
thrown by the chosen strategy, turning it into a failure result via
`handleUploadError` (for the plain `Error`s thrown on this path that is
`{success:false, message: error.message}`).  Crucially, a validation
failure is *returned*, not thrown. -/

/-- Result of `authService.getCurrentUser()`: possibly no user, with possibly missing
or empty token/session fields (JS truthiness). -/
structure User where
  token : Option String
  sessionId : Option String
deriving DecidableEq, Repr

/-- JS `user?.token && user?.sessionId` truthiness. -/
def userAuthed (user : Option User) : Bool :=
  match user with
  | none => false
  | some u =>
    (match u.token with | some t => t ≠ "" | none => false) &&
    (match u.sessionId with | some s => s ≠ "" | none => false)

def noAuthMsg : String := "인증 정보가 없습니다."

/-- Outcome of `uploadFile`: a failure result or a success result carrying
the file record.  `uploadFile` itself never rejects: every thrown error is
caught and converted. -/
inductive UploadResult
  | failure (message : String)
  | ok (record : FileRecord)
deriving DecidableEq, Repr

/-- Model of `uploadFile` with the transport outcomes as parameters.  `bucketName`
selects the strategy under JS truthiness; `legacy` is the outcome of
`uploadToLegacyMethod` (out of scope of the claims, passed through the same
`catch`). -/
def uploadFile (f : FileDesc) (user : Option User) (bucketName : Option String)
    (put : PutOutcome) (meta : MetaResponse) (s3Key url : String)
    (legacy : Except String UploadResult) : UploadResult :=
  match validateFile (some f) with
  | .failure msg => .failure msg
  | .ok _cfg =>
    if ¬ userAuthed user then .failure noAuthMsg
    else
      match bucketName with
      | some b =>
        if b = "" then
          match legacy with
          | .ok r => r
          | .error e => .failure e
        else
          match uploadToS3Method put meta f s3Key url with
          | .ok rec => .ok rec
          | .error e => .failure e
      | none =>
        match legacy with
        | .ok r => r
        | .error e => .failure e

/-! ## `retryUpload` (lines 581-597)

Bounded retry driver.  `op n` is the outcome of the `n`-th invocation of
`this.uploadFile(...)` viewed as a promise: it either resolves with an
`UploadResult` (including failure results!) or rejects with an error.
Only rejections are retried.  The trace records which attempts invoked the
operation, the delays slept between attempts, and the final outcome. -/

inductive OpOutcome
  | ok (r : UploadResult)
  | err (e : String)
deriving DecidableEq, Repr

def maxRetryMsg : String := "최대 재시도 횟수를 초과했습니다."

instance : DecidableEq (Except String UploadResult) := fun a b =>
  match a, b with
  | .ok x, .ok y =>
    if h : x = y then .isTrue (by rw [h]) else .isFalse (by simp [h])
  | .ok _, .error _ => .isFalse (by simp)
  | .error _, .ok _ => .isFalse (by simp)
  | .error x, .error y =>
    if h : x = y then .isTrue (by rw [h]) else .isFalse (by simp [h])

structure RetryTrace where
  invocations : List Nat
  delays : List Nat
  result : Except String UploadResult
deriving DecidableEq, Repr

def retryUpload (retryAttempts retryDelay : Nat) (op : Nat → OpOutcome)
    (attempt : Nat) : RetryTrace :=
  if attempt > retryAttempts then ⟨[], [], .error maxRetryMsg⟩
  else
    match op attempt with
    | .ok r => ⟨[attempt], [], .ok r⟩
    | .err e =>
      if _h : attempt < retryAttempts then
        let rest := retryUpload retryAttempts retryDelay op (attempt + 1)
        ⟨attempt :: rest.invocations, retryDelay * attempt :: rest.delays,
          rest.result⟩
      else ⟨[attempt], [], .error e⟩
termination_by retryAttempts + 1 - attempt
decreasing_by omega

/-! ## The cancellation registry (`this.activeUploads`, line 12) and
`cancelUpload` (lines 481-489)

`activeUploads` is a `Map` from filename to a cancellation source.  It is
created empty in the constructor; the only accesses anywhere in the
repository are the `get`/`delete` in `cancelUpload` — no method ever calls
`set`.  We model the registry as an association list and each public
service operation by its effect on the registry. -/

abbrev Registry := List (String × String)

/-- JS `Map.prototype.get`. -/
def registryGet (reg : Registry) (filename : String) : Option String :=
  (reg.find? (fun e => e.1 = filename)).map Prod.snd

/-- JS `Map.prototype.delete` (as a map transformation). -/
def registryDelete (reg : Registry) (filename : String) : Registry :=
  reg.filter (fun e => ¬ e.1 = filename)

/-- Model of `cancelUpload`: look up the cancellation source; when present, cancel,
remove the entry and return `true`; otherwise return `false`. -/
def cancelUpload (reg : Registry) (filename : String) : Registry × Bool :=
  match registryGet reg filename with
  | some _ => (registryDelete reg filename, true)
  | none => (reg, false)

/-- The public operations of the service, abstracted to their effect on the
cancellation registry.  Every method of `FileService` other than
`cancelUpload` leaves `activeUploads` untouched (none of them mentions it),
as does the rendering component `FileMessage.js`, which only calls
`downloadFile`, `openInNewTab` and `formatFileSize`. -/
inductive ServiceOp
  | validateFileOp (f : Option FileDesc)
  | uploadFileOp (f : FileDesc)
  | uploadToS3Op | uploadToS3MethodOp | uploadToLegacyMethodOp
  | saveFileMetadataOp | downloadFileOp | openInNewTabOp
  | getS3UrlOp | getFileUrlOp | getPreviewUrlOp | formatFileSizeOp
  | retryUploadOp (f : FileDesc)
  | cancelUploadOp (filename : String)
deriving DecidableEq, Repr

/-- Effect of one service operation on the registry. -/
def applyOp (reg : Registry) : ServiceOp → Registry
  | .cancelUploadOp filename => (cancelUpload reg filename).1
  | _ => reg

/-- Registry reached after a sequence of operations from the
freshly-constructed service (`new Map()`). -/
def runOps (ops : List ServiceOp) : Registry :=
  ops.foldl applyOp []

/-! ## Claims about `validateFile`, `getS3Url` and `formatFileSize` -/

/-- C9: `formatFileSize` returns `"0 Bytes"` for input `0`, `"1 KB"` for
input `1024`, and `"1.5 KB"` for input `1536`. -/
theorem formatFileSize_examples :
    formatFileSize 0 = "0 Bytes" ∧ formatFileSize 1024 = "1 KB" ∧
      formatFileSize 1536 = "1.5 KB" := by
  decide

/-- C7: `getS3Url` builds `https://<cdn-domain>/<key>` when a CDN domain is
configured (a nonempty `cloudFrontDomain`) and `<bucket-base-url>/<key>`
otherwise; in particular it maps the two concrete configurations of the
claim to the two stated URLs. -/
theorem getS3Url_construction (d bucketUrl key : String) (hd : d ≠ "") :
    getS3Url ⟨some d, bucketUrl⟩ key = "https://" ++ d ++ "/" ++ key ∧
    getS3Url ⟨none, bucketUrl⟩ key = bucketUrl ++ "/" ++ key ∧
    getS3Url ⟨some "cdn.x", "https://b.s3.amazonaws.com"⟩ "uploads/images/1-a.png"
      = "https://cdn.x/uploads/images/1-a.png" ∧
    getS3Url ⟨none, "https://b.s3.amazonaws.com"⟩ "uploads/images/1-a.png"
      = "https://b.s3.amazonaws.com/uploads/images/1-a.png" := by
  refine ⟨?_, rfl, by decide, by decide⟩
  simp [getS3Url, hd]

/-- C7 witness: the CDN branch of `getS3Url_construction` at the concrete
configuration of the claim. -/
theorem getS3Url_construction_witness :
    getS3Url ⟨some "cdn.x", "https://b.s3.amazonaws.com"⟩ "uploads/images/1-a.png"
      = "https://" ++ "cdn.x" ++ "/" ++ "uploads/images/1-a.png" :=
  (getS3Url_construction "cdn.x" "https://b.s3.amazonaws.com"
    "uploads/images/1-a.png" (by decide)).1

/-- C5: every file whose size exceeds the global hard cap fails validation,
whatever its MIME type or extension: `validateFile` returns the global-cap
failure before any type matching happens. -/
theorem validateFile_global_cap_fails (f : FileDesc) (h : f.size > uploadLimit) :
    validateFile (some f) = .failure globalCapMsg := by
  simp [validateFile, h]

/-- C5 witness: a 50MB+1 file with an allowed image MIME type and extension
is rejected by the global cap. -/
theorem validateFile_global_cap_fails_witness :
    validateFile (some ⟨"a.png", "image/png", uploadLimit + 1⟩)
      = .failure globalCapMsg :=
  validateFile_global_cap_fails ⟨"a.png", "image/png", uploadLimit + 1⟩
    (by decide)

/-- C4: a file whose declared MIME type matches some class (the first one,
in configuration order, returned by `findByMime`) but whose lowercased
extension is not in that class's extension set always fails validation —
the MIME-spoofing guard. -/
theorem validateFile_mime_spoofing_guard (f : FileDesc) (cfg : TypeConfig)
    (hm : findByMime f.type = some cfg)
    (he : cfg.extensions.contains (lowerString (getFileExtension f.name)) = false) :
    ∃ msg, validateFile (some f) = .failure msg := by
  have he' : lowerString (getFileExtension f.name) ∉ cfg.extensions := by
    simpa using he
  by_cases hs : f.size > uploadLimit
  · exact ⟨globalCapMsg, by simp [validateFile, hs]⟩
  · by_cases hc : f.size > cfg.maxSize
    · exact ⟨classCapMsg cfg, by simp [validateFile, hs, hm, checkMatched, hc]⟩
    · exact ⟨badExtMsg cfg, by simp [validateFile, hs, hm, checkMatched, hc, he']⟩

/-- C4 witness: a file declared `image/png` but named `a.txt` (a document
extension) is rejected. -/
theorem validateFile_mime_spoofing_guard_witness :
    ∃ msg, validateFile (some ⟨"a.txt", "image/png", 10⟩) = .failure msg :=
  validateFile_mime_spoofing_guard ⟨"a.txt", "image/png", 10⟩ imageConfig
    (by decide) (by decide)

/-- C6: when no class matches the declared MIME type but some class (the
first, returned by `findByExt`) contains the lowercased extension, and the
size is within both the global cap and that class's cap, validation
succeeds with exactly that class. -/
theorem validateFile_extension_fallback (f : FileDesc) (cfg : TypeConfig)
    (hm : findByMime f.type = none)
    (he : findByExt (lowerString (getFileExtension f.name)) = some cfg)
    (hg : f.size ≤ uploadLimit) (hc : f.size ≤ cfg.maxSize) :
    validateFile (some f) = .ok cfg := by
  have he' : allowedTypes.find?
      (fun c => c.extensions.contains (lowerString (getFileExtension f.name)))
      = some cfg := he
  have hcont : cfg.extensions.contains (lowerString (getFileExtension f.name))
      = true :=
    List.find?_some (p := fun (c : TypeConfig) =>
      c.extensions.contains (lowerString (getFileExtension f.name))) he'
  have hmem : lowerString (getFileExtension f.name) ∈ cfg.extensions := by
    simpa using hcont
  have hg' : ¬ f.size > uploadLimit := by omega
  have hc' : ¬ f.size > cfg.maxSize := by omega
  simp [validateFile, hg', hm, he, checkMatched, hc', hmem]

/-- C6 witness: a file named `a.PNG` with the unmatched MIME type
`application/octet-stream` falls back to the extension path and matches the
image class. -/
theorem validateFile_extension_fallback_witness :
    validateFile (some ⟨"a.PNG", "application/octet-stream", 5⟩)
      = .ok imageConfig :=
  validateFile_extension_fallback ⟨"a.PNG", "application/octet-stream", 5⟩
    imageConfig (by decide) (by decide) (by decide) (by decide)

/-! ## Unfolding lemmas and attempt bound for `retryUpload` -/

theorem retryUpload_of_gt {A d attempt : Nat} (op : Nat → OpOutcome)
    (h : attempt > A) :
    retryUpload A d op attempt = ⟨[], [], .error maxRetryMsg⟩ := by
  rw [retryUpload]; simp [h]

theorem retryUpload_of_ok {A d attempt : Nat} {r : UploadResult}
    (op : Nat → OpOutcome) (h : ¬ attempt > A) (hop : op attempt = .ok r) :
    retryUpload A d op attempt = ⟨[attempt], [], .ok r⟩ := by
  rw [retryUpload]; simp [h, hop]

theorem retryUpload_of_err_rec {A d attempt : Nat} {e : String}
    (op : Nat → OpOutcome) (h : ¬ attempt > A) (hop : op attempt = .err e)
    (hlt : attempt < A) :
    retryUpload A d op attempt =
      ⟨attempt :: (retryUpload A d op (attempt + 1)).invocations,
       d * attempt :: (retryUpload A d op (attempt + 1)).delays,
       (retryUpload A d op (attempt + 1)).result⟩ := by
  rw [retryUpload]; simp [h, hop, hlt]

theorem retryUpload_of_err_last {A d attempt : Nat} {e : String}
    (op : Nat → OpOutcome) (h : ¬ attempt > A) (hop : op attempt = .err e)
    (hge : ¬ attempt < A) :
    retryUpload A d op attempt = ⟨[attempt], [], .error e⟩ := by
  rw [retryUpload]; simp [h, hop, hge]

theorem retryUpload_invocations_bound (A d : Nat) (op : Nat → OpOutcome) :
    ∀ fuel attempt, A + 1 - attempt ≤ fuel →
      (retryUpload A d op attempt).invocations.length ≤ A + 1 - attempt := by
  intro fuel
  induction fuel with
  | zero =>
    intro attempt h
    rw [retryUpload_of_gt op (by omega)]
    simp
  | succ n ih =>
    intro attempt h
    by_cases hgt : attempt > A
    · rw [retryUpload_of_gt op hgt]; simp
    · cases hop : op attempt with
      | ok r =>
        rw [retryUpload_of_ok op hgt hop]
        simp; omega
      | err e =>
        by_cases hlt : attempt < A
        · rw [retryUpload_of_err_rec op hgt hop hlt]
          have h2 := ih (attempt + 1) (by omega)
          simp only [List.length_cons]
          omega
        · rw [retryUpload_of_err_last op hgt hop hlt]
          simp; omega

/-! ## Claims about the retry controller -/

/-- C1 counterexample: with the configured 3 attempts and 1000ms base
delay, an operation failing on all three attempts makes `retryUpload`
rethrow the operation's own last error — not the max-retries-exceeded
(`RetryExhaustedError`) message, which is unreachable when starting from
attempt 1. -/
theorem retryUpload_exhaust_rethrows_last_error :
    retryUpload retryAttemptsConfig retryDelayConfig
      (fun _ => .err "ECONNRESET") 1
      = ⟨[1, 2, 3], [1000, 2000], .error "ECONNRESET"⟩ ∧
    ("ECONNRESET" : String) ≠ maxRetryMsg := by
  constructor
  · simp [retryUpload, retryAttemptsConfig, retryDelayConfig]
  · decide

/-- C1 (amended): `retryUpload` wraps the operation in a bounded retry
loop of at most 3 attempts total, sleeping `base_delay * attempt_number`
between consecutive attempts (delays `base*1` then `base*2`); an operation
failing on all 3 attempts makes `retryUpload` fail by rethrowing the third
attempt's error (the explicit max-retries error is raised only when
entered with an attempt index beyond the maximum); an operation that fails
twice then succeeds on the third attempt returns success after exactly 3
invocations. -/
theorem retryUpload_bounded_behavior (d : Nat) (op : Nat → OpOutcome)
    (e1 e2 e3 : String) (r : UploadResult)
    (h1 : op 1 = .err e1) (h2 : op 2 = .err e2) :
    (∀ op2 : Nat → OpOutcome,
      (retryUpload retryAttemptsConfig d op2 1).invocations.length ≤ 3) ∧
    (op 3 = .err e3 →
      retryUpload retryAttemptsConfig d op 1
        = ⟨[1, 2, 3], [d * 1, d * 2], .error e3⟩) ∧
    (op 3 = .ok r →
      retryUpload retryAttemptsConfig d op 1
        = ⟨[1, 2, 3], [d * 1, d * 2], .ok r⟩) := by
  refine ⟨?_, ?_, ?_⟩
  · intro op2
    exact retryUpload_invocations_bound retryAttemptsConfig d op2 3 1 (by decide)
  · intro h3
    rw [retryUpload_of_err_rec op (by decide) h1 (by decide),
        retryUpload_of_err_rec op (by decide) h2 (by decide),
        retryUpload_of_err_last op (by decide) h3 (by decide)]
  · intro h3
    rw [retryUpload_of_err_rec op (by decide) h1 (by decide),
        retryUpload_of_err_rec op (by decide) h2 (by decide),
        retryUpload_of_ok op (by decide) h3]

/-- C1 witness: a concrete operation failing twice and succeeding on the
third attempt gives success after exactly 3 invocations with delays
`1000*1` and `1000*2`. -/
theorem retryUpload_bounded_behavior_witness :
    retryUpload retryAttemptsConfig 1000
      (fun n => if n < 3 then .err "boom" else .ok (.failure "x")) 1
      = ⟨[1, 2, 3], [1000 * 1, 1000 * 2], .ok (.failure "x")⟩ :=
  (retryUpload_bounded_behavior 1000
    (fun n => if n < 3 then .err "boom" else .ok (.failure "x"))
    "boom" "boom" "unused" (.failure "x") (by decide) (by decide)).2.2 (by decide)

/-- C8 counterexample: a file whose validation fails (here an `.exe` with
an unsupported MIME type) is *not* retried: `uploadFile` returns the
validation failure as a resolved result, so `retryUpload` performs exactly
one invocation and no delays — while a thrown transient failure under the
same configuration is invoked three times. -/
theorem validation_failure_not_retried :
    retryUpload retryAttemptsConfig retryDelayConfig
      (fun _ => .ok (uploadFile ⟨"malware.exe", "application/x-msdownload", 10⟩
        (some ⟨some "tok", some "sess"⟩) (some "bucket")
        (.response 200 "OK" none) ⟨true, none, some "id"⟩ "k" "u"
        (.error "unused"))) 1
      = ⟨[1], [], .ok (.failure unsupportedMsg)⟩ ∧
    (retryUpload retryAttemptsConfig retryDelayConfig
        (fun _ => .err "network error") 1).invocations = [1, 2, 3] := by
  constructor
  · have huf : uploadFile ⟨"malware.exe", "application/x-msdownload", 10⟩
        (some ⟨some "tok", some "sess"⟩) (some "bucket")
        (.response 200 "OK" none) ⟨true, none, some "id"⟩ "k" "u"
        (.error "unused") = .failure unsupportedMsg := by decide
    rw [retryUpload_of_ok _ (by decide) rfl, huf]
  · have h : retryUpload retryAttemptsConfig retryDelayConfig
        (fun _ => .err "network error") 1
        = ⟨[1, 2, 3], [1000, 2000], .error "network error"⟩ := by
      simp [retryUpload, retryAttemptsConfig, retryDelayConfig]
    rw [h]

/-- C8 (amended): the retry controller retries only rejected promises, and
`uploadFile` returns validation failures as resolved failure results; so
for every file that fails validation, the failure is returned from the
first invocation with no retries and no delays, rather than being retried
like a transient (thrown) error. -/
theorem uploadFile_validation_failure_single_attempt
    (f : FileDesc) (user : Option User) (bucketName : Option String)
    (put : PutOutcome) (meta : MetaResponse) (s3Key url : String)
    (legacy : Except String UploadResult) (d : Nat) (msg : String)
    (hval : validateFile (some f) = .failure msg) :
    uploadFile f user bucketName put meta s3Key url legacy = .failure msg ∧
    retryUpload retryAttemptsConfig d
      (fun _ => .ok (uploadFile f user bucketName put meta s3Key url legacy)) 1
      = ⟨[1], [], .ok (.failure msg)⟩ := by
  have huf : uploadFile f user bucketName put meta s3Key url legacy
      = .failure msg := by
    simp [uploadFile, hval]
  exact ⟨huf, by rw [retryUpload_of_ok _ (by decide) rfl, huf]⟩

/-- C8 witness: the amended statement at a concrete file failing
validation. -/
theorem uploadFile_validation_failure_single_attempt_witness :
    retryUpload retryAttemptsConfig 1000
      (fun _ => .ok (uploadFile ⟨"virus.exe", "application/x-msdownload", 7⟩
        none none (.reject "r") ⟨false, none, none⟩ "k" "u" (.error "l"))) 1
      = ⟨[1], [], .ok (.failure unsupportedMsg)⟩ :=
  (uploadFile_validation_failure_single_attempt
    ⟨"virus.exe", "application/x-msdownload", 7⟩ none none (.reject "r")
    ⟨false, none, none⟩ "k" "u" (.error "l") 1000 unsupportedMsg (by decide)).2

/-! ## Claims about the direct-storage path and metadata persistence -/

/-- C3: on the direct-storage path, `uploadToS3Method` returns a success
result carrying a `FileRecord` only when both the storage transfer and the
metadata-persistence call succeed, and when the metadata call fails after a
successful transfer the whole operation fails (no rollback of the stored
bytes is performed or modelled). -/
theorem uploadToS3Method_success_requires_both (put : PutOutcome)
    (meta : MetaResponse) (f : FileDesc) (s3Key url : String) :
    ((∃ rec, uploadToS3Method put meta f s3Key url = Except.ok rec) →
      (∃ s3res, uploadToS3 put s3Key url = Except.ok s3res) ∧
        meta.success = true) ∧
    ((∃ s3res, uploadToS3 put s3Key url = Except.ok s3res) →
      meta.success = false →
      ∃ e, uploadToS3Method put meta f s3Key url = Except.error e) := by
  constructor
  · rintro ⟨rec, hrec⟩
    cases hu : uploadToS3 put s3Key url with
    | error e => simp [uploadToS3Method, hu] at hrec
    | ok s3res =>
      refine ⟨⟨s3res, rfl⟩, ?_⟩
      cases hs : meta.success with
      | true => rfl
      | false => simp [uploadToS3Method, hu, hs] at hrec
  · rintro ⟨s3res, hu⟩ hfail
    exact ⟨(meta.message).getD metaSaveFailedMsg,
      by simp [uploadToS3Method, hu, hfail]⟩

/-- C3 witness: a successful PUT followed by a rejected metadata call
(backend says `db down`) fails the whole operation. -/
theorem uploadToS3Method_success_requires_both_witness :
    ∃ e, uploadToS3Method (.response 200 "OK" (some "etag"))
      ⟨false, some "db down", none⟩ ⟨"a.png", "image/png", 5⟩ "k" "u"
      = Except.error e :=
  (uploadToS3Method_success_requires_both (.response 200 "OK" (some "etag"))
    ⟨false, some "db down", none⟩ ⟨"a.png", "image/png", 5⟩ "k" "u").2
    ⟨⟨"k", "u", some "etag"⟩, rfl⟩ rfl

/-- C2 counterexample: with a backend returning 401, 401, then 500 and a
refresh that keeps succeeding, `saveFileMetadata` issues three POSTs and
two refresh calls, and the final failure carries the server's 500 message,
not the session-expired message — so the refresh is not called exactly
once, the POST is retried more than once, and a failing retried POST does
not surface a session-expired failure. -/
theorem saveFileMetadata_repeated_refresh :
    saveFileMetadata
      (fun p => if p < 2 then .httpError 401 none
                else .httpError 500 (some "server error"))
      (fun _ => .ok true) 10 0 0
      = some ⟨3, 2, ⟨false, some "server error", none⟩⟩ ∧
    (2 : Nat) ≠ 1 ∧ some "server error" ≠ some sessionExpiredMsg := by
  refine ⟨by decide, by decide, by decide⟩

/-- C2 (amended): on a 401 response `saveFileMetadata` makes one token
refresh attempt; if the refresh fails or throws it returns the
session-expired failure immediately, with exactly one additional refresh
call and no further POSTs; but if the refresh succeeds it re-invokes
itself in full, so the retried POST is subject to the same 401
refresh-and-retry handling again (the refresh is not bounded to exactly
one call overall, and a retried POST failing with a non-401 error yields a
generic metadata failure, not a session-expired one). -/
theorem saveFileMetadata_401_behavior (post : Nat → PostOutcome)
    (refresh : Nat → RefreshOutcome) (fuel p r : Nat) (m : Option String)
    (h401 : post p = .httpError 401 m) :
    (refresh r = .ok false →
      saveFileMetadata post refresh (fuel + 1) p r
        = some ⟨p + 1, r + 1, ⟨false, some sessionExpiredMsg, none⟩⟩) ∧
    (refresh r = .exn →
      saveFileMetadata post refresh (fuel + 1) p r
        = some ⟨p + 1, r + 1, ⟨false, some sessionExpiredMsg, none⟩⟩) ∧
    (refresh r = .ok true →
      saveFileMetadata post refresh (fuel + 1) p r
        = saveFileMetadata post refresh fuel (p + 1) (r + 1)) := by
  refine ⟨?_, ?_, ?_⟩ <;> intro hr <;> simp [saveFileMetadata, h401, hr]

/-- C2 witness: a 401 whose refresh reports failure yields the
session-expired failure after one POST and one refresh. -/
theorem saveFileMetadata_401_behavior_witness :
    saveFileMetadata (fun _ => .httpError 401 none) (fun _ => .ok false)
      (4 + 1) 0 0
      = some ⟨1, 1, ⟨false, some sessionExpiredMsg, none⟩⟩ :=
  (saveFileMetadata_401_behavior (fun _ => .httpError 401 none)
    (fun _ => .ok false) 4 0 0 none rfl).1 rfl

/-! ## Claim about the cancellation registry -/

theorem applyOp_empty (op : ServiceOp) : applyOp [] op = [] := by
  cases op <;> rfl

theorem runOps_nil_registry (ops : List ServiceOp) : runOps ops = [] := by
  induction ops with
  | nil => rfl
  | cons o os ih =>
    show List.foldl applyOp (applyOp [] o) os = []
    rw [applyOp_empty]
    exact ih

/-- C10: no operation of the service ever inserts into the cancellation
registry — `activeUploads` is empty in every reachable state — and
consequently `cancelUpload` returns `false` for every filename and leaves
the registry unchanged. -/
theorem activeUploads_always_empty (ops : List ServiceOp) (filename : String) :
    runOps ops = [] ∧
    cancelUpload (runOps ops) filename = (runOps ops, false) := by
  have h := runOps_nil_registry ops
  exact ⟨h, by rw [h]; rfl⟩

end FileService
